import Mathlib

/-!
# Verification of the DemoGraph county demographics explorer

Shallow embedding of the core logic of the DemoGraph repository:

* the income-distribution aggregation of `fetchCountyStats` (`src/census.js`),
* the ethnicity / generational breakdown helpers
  (`src/utils/demographicBreakdowns.js` and the main module),
* the age-row parser `parseAgeData` inside `fetchCensusData` (main module),
* the navigation state machine (`zoomToState` / `zoomOut` / `revealCounties`),
* the history tracker (`recordCountyHistory`, `renderHistoryPanel` ordering,
  `compareToBaseline`) of the main module.

Machine numbers are modelled as exact rationals (`ℚ`); JavaScript `null` /
`undefined` / non-coercible (`NaN`) values as `Option ℚ`.  `x.toFixed(1)`
re-read as a number is modelled by `round1` (round to the nearest tenth,
ties away from zero for the non-negative values that occur here, matching
ECMAScript `toFixed` / `Math.round` tie-breaking toward +∞).
-/

namespace DemoGraph

/-- Floor of a rational, computed directly on its reduced fraction. -/
def ratFloor (x : ℚ) : ℤ := x.num / (x.den : ℤ)

/-- JavaScript `Math.round`: nearest integer, ties toward +∞. -/
def jsRound (x : ℚ) : ℤ := ratFloor (x + 1 / 2)

/-- The function `ratFloor` agrees with the mathematical floor. -/
theorem ratFloor_eq_floor (x : ℚ) : ratFloor x = ⌊x⌋ := Rat.floor_def.symm

/-- The function `jsRound` is the usual round-half-up. -/
theorem jsRound_eq_round (x : ℚ) : jsRound x = round x := by
  rw [jsRound, ratFloor_eq_floor, round_eq]

/-- Model of `Number((x).toFixed(1))`: round to one decimal place, ties toward +∞
(for the non-negative quantities of this program). -/
def round1 (x : ℚ) : ℚ := ((jsRound (10 * x) : ℤ) : ℚ) / 10

/-- Model of `arr.slice(a, b)` for a list of cells. -/
def jsSlice (l : List ℚ) (a b : ℕ) : List ℚ := (l.drop a).take (b - a)

/-! ## Income distribution of `fetchCountyStats` (src/census.js)

The detail row is `[NAME, B19001_001E, B19001_002E, …, B19001_017E, state,
county]`: cell 0 is the display name (never parsed numerically), cell 1 the
total household count, cells 2–17 the sixteen raw dollar brackets.  We model
the numerically-parsed row as a `List ℚ`; cell 0 is a placeholder the
functions below never read. -/

/-- Function `pct(n, d)` from src/census.js: `d > 0 ? +((100 * n / d).toFixed(1)) : 0`. -/
def pct (n d : ℚ) : ℚ := if 0 < d then round1 (100 * n / d) else 0

/-- Model of `arr.reduce((a, v) => a + num(v), 0)` on numeric cells. -/
def rowSum (l : List ℚ) : ℚ := l.foldl (fun a v => a + v) 0

/-- The five canonical output ranges of the income distribution. -/
structure IncomeDist where
  lt25 : ℚ
  p25to50 : ℚ
  p50to75 : ℚ
  p75to100 : ℚ
  gt100 : ℚ
deriving DecidableEq, Repr

/-- The income distribution computed by `fetchCountyStats`
(src/census.js lines 33–48): the code slices the detail row as
`slice(2,6)`, `slice(6,10)`, `slice(10,13)`, `slice(13,15)`, `slice(15,18)`. -/
def incomeDistOfRow (detRow : List ℚ) : IncomeDist :=
  let total := detRow.getD 1 0
  { lt25 := pct (rowSum (jsSlice detRow 2 6)) total
    p25to50 := pct (rowSum (jsSlice detRow 6 10)) total
    p50to75 := pct (rowSum (jsSlice detRow 10 13)) total
    p75to100 := pct (rowSum (jsSlice detRow 13 15)) total
    gt100 := pct (rowSum (jsSlice detRow 15 18)) total }

/-- Modelled from the spec: the grouping in which each canonical range sums
exactly the raw brackets whose dollar spans constitute it.  In ACS table
B19001 the sixteen brackets (row cells 2–17) span, in order: <10k, 10–15k,
15–20k, 20–25k, 25–30k, 30–35k, 35–40k, 40–45k, 45–50k, 50–60k, 60–75k,
75–100k, 100–125k, 125–150k, 150–200k, ≥200k.  Hence `< $25k` is cells 2–5,
`$25k–50k` cells 6–10, `$50k–75k` cells 11–12, `$75k–100k` cell 13 and
`> $100k` cells 14–17. -/
def specIncomeDistOfRow (detRow : List ℚ) : IncomeDist :=
  let total := detRow.getD 1 0
  { lt25 := pct (rowSum (jsSlice detRow 2 6)) total
    p25to50 := pct (rowSum (jsSlice detRow 6 11)) total
    p50to75 := pct (rowSum (jsSlice detRow 11 13)) total
    p75to100 := pct (rowSum (jsSlice detRow 13 14)) total
    gt100 := pct (rowSum (jsSlice detRow 14 18)) total }

/-- A detail row whose only nonzero bracket is cell 10 = `B19001_010E`
($45,000–$49,999), with 100 total households. -/
def c1FailingRow : List ℚ :=
  [0, 100, 0, 0, 0, 0, 0, 0, 0, 0, 100, 0, 0, 0, 0, 0, 0, 0]

/-- C1. On a 17-bracket response whose 100 households all earn
$45,000–$49,999 (bracket `B19001_010E`), `fetchCountyStats` reports 100% of
households in the `$50,000 - $75,000` range and 0% in `$25,000 - $50,000`,
whereas summing exactly the raw brackets whose dollar spans constitute each
canonical range puts the 100% in `$25,000 - $50,000`: the code's slice
boundaries are misaligned with its own range labels. -/
theorem incomeDist_bracket_misalignment_C1 :
    incomeDistOfRow c1FailingRow =
      { lt25 := 0, p25to50 := 0, p50to75 := 100, p75to100 := 0, gt100 := 0 } ∧
    specIncomeDistOfRow c1FailingRow =
      { lt25 := 0, p25to50 := 100, p50to75 := 0, p75to100 := 0, gt100 := 0 } ∧
    incomeDistOfRow c1FailingRow ≠ specIncomeDistOfRow c1FailingRow := by
  have h1 : incomeDistOfRow c1FailingRow =
      { lt25 := 0, p25to50 := 0, p50to75 := 100, p75to100 := 0, gt100 := 0 } := by
    simp only [incomeDistOfRow, c1FailingRow, jsSlice, rowSum, pct, round1, jsRound,
      ratFloor_eq_floor, List.getD, List.drop, List.take, List.foldl, List.get?]
    norm_num
  have h2 : specIncomeDistOfRow c1FailingRow =
      { lt25 := 0, p25to50 := 100, p50to75 := 0, p75to100 := 0, gt100 := 0 } := by
    simp only [specIncomeDistOfRow, c1FailingRow, jsSlice, rowSum, pct, round1, jsRound,
      ratFloor_eq_floor, List.getD, List.drop, List.take, List.foldl, List.get?]
    norm_num
  refine ⟨h1, h2, ?_⟩
  rw [h1, h2]
  intro h
  rw [IncomeDist.mk.injEq] at h
  norm_num at h

/-! ## Ethnicity breakdown (src/utils/demographicBreakdowns.js)

`computeEthnicityBreakdown(data)` reads `Number(data.B03002_xxxE)` fields;
`none` models an absent field (`Number(undefined) = NaN`) and a `none`
result field models the `"NaN"` string `toFixed` produces from it. -/

/-- NaN-propagating addition of JavaScript numbers (`none` = `NaN`). -/
def optAdd (a b : Option ℚ) : Option ℚ :=
  match a, b with
  | some x, some y => some (x + y)
  | _, _ => none

/-- Model of `(x / total * 100).toFixed(1)` with a NaN-propagating numerator. -/
def divPct (x : Option ℚ) (t : ℚ) : Option ℚ := x.map (fun v => round1 (v / t * 100))

/-- The ACS B03002 cells available to `computeEthnicityBreakdown`.
`B03002_005E` (American Indian / Alaska Native alone) is part of the fetched
12-category table but is never read by the function. -/
structure EthnicityData where
  B03002_001E : Option ℚ
  B03002_003E : Option ℚ
  B03002_004E : Option ℚ
  B03002_005E : Option ℚ
  B03002_006E : Option ℚ
  B03002_007E : Option ℚ
  B03002_008E : Option ℚ
  B03002_009E : Option ℚ
  B03002_010E : Option ℚ
  B03002_011E : Option ℚ
  B03002_012E : Option ℚ
deriving DecidableEq

/-- The five output percentages of `computeEthnicityBreakdown`. -/
structure EthnicityBreakdown where
  white : Option ℚ
  black : Option ℚ
  hispanic : Option ℚ
  asian : Option ℚ
  other : Option ℚ
deriving DecidableEq

/-- Function `computeEthnicityBreakdown` (src/utils/demographicBreakdowns.js
lines 20–40): `null` when `Number(data.B03002_001E)` is falsy (`0` or `NaN`),
otherwise each named category as `(count / total * 100).toFixed(1)` and
`other` as the sum of `B03002_007E`–`B03002_011E` as a percentage. -/
def computeEthnicityBreakdown (d : EthnicityData) : Option EthnicityBreakdown :=
  match d.B03002_001E with
  | none => none
  | some t =>
    if t = 0 then none
    else some
      { white := divPct d.B03002_003E t
        black := divPct d.B03002_004E t
        hispanic := divPct d.B03002_012E t
        asian := divPct d.B03002_006E t
        other := divPct
          (optAdd (optAdd (optAdd (optAdd d.B03002_007E d.B03002_008E)
            d.B03002_009E) d.B03002_010E) d.B03002_011E) t }

/-- A fully consistent B03002 record with total 1000, white 500, black 120,
hispanic 200, asian 80: the remaining 100 persons are Native American alone
(`B03002_005E`), so the five categories `B03002_007E`–`B03002_011E` summed
by the code are all 0.  (Consistency: 500+120+100+80+0+0+0 = 800 not
Hispanic, plus 200 Hispanic = 1000.) -/
def c2CountsInput : EthnicityData :=
  { B03002_001E := some 1000
    B03002_003E := some 500
    B03002_004E := some 120
    B03002_005E := some 100
    B03002_006E := some 80
    B03002_007E := some 0
    B03002_008E := some 0
    B03002_009E := some 0
    B03002_010E := some 0
    B03002_011E := some 0
    B03002_012E := some 200 }

/-- C2 counterexample. For valid counts with total 1000, white 500,
black 120, hispanic 200, asian 80, the code's "other" is the percentage of
`B03002_007E + … + B03002_011E`, not of `total − white − black − hispanic −
asian`: on `c2CountsInput` (where the difference, 100 persons, is Native
American alone) it yields `other = 0.0`, not the claimed `10.0`. -/
theorem ethnicity_other_counterexample_C2 :
    computeEthnicityBreakdown c2CountsInput =
      some { white := some 50, black := some 12, hispanic := some 20,
             asian := some 8, other := some 0 } ∧
    (computeEthnicityBreakdown c2CountsInput).map EthnicityBreakdown.other ≠
      some (some 10) := by
  have h : computeEthnicityBreakdown c2CountsInput =
      some { white := some 50, black := some 12, hispanic := some 20,
             asian := some 8, other := some 0 } := by
    simp only [computeEthnicityBreakdown, c2CountsInput, divPct, optAdd, round1, jsRound,
      ratFloor_eq_floor, Option.map]
    norm_num
  refine ⟨h, ?_⟩
  rw [h]
  intro hc
  simp only [Option.map, Option.some.injEq] at hc
  norm_num at hc

/-- Like `c2CountsInput`, but the 100 persons beyond the four named groups
are "some other race alone" (`B03002_008E`), so the five categories the code
sums total 100. -/
def c2MinorityInput : EthnicityData :=
  { B03002_001E := some 1000
    B03002_003E := some 500
    B03002_004E := some 120
    B03002_005E := some 0
    B03002_006E := some 80
    B03002_007E := some 0
    B03002_008E := some 100
    B03002_009E := some 0
    B03002_010E := some 0
    B03002_011E := some 0
    B03002_012E := some 200 }

/-- A record with a positive total and every category count 0. -/
def c2AllZeroInput : EthnicityData :=
  { B03002_001E := some 1000
    B03002_003E := some 0
    B03002_004E := some 0
    B03002_005E := some 0
    B03002_006E := some 0
    B03002_007E := some 0
    B03002_008E := some 0
    B03002_009E := some 0
    B03002_010E := some 0
    B03002_011E := some 0
    B03002_012E := some 0 }

/-- C2 amended. For every input whose total is a nonzero number,
`computeEthnicityBreakdown` returns white, black, hispanic and asian as
count/total·100 rounded to one decimal and "other" as the sum of the five
categories `B03002_007E`–`B03002_011E` as a percentage of the total (which
need not equal total minus the four named groups); for total 1000,
white 500, black 120, hispanic 200, asian 80 it yields white = 50.0, and
other = 10.0 when those five categories sum to 100; when the total is zero
or absent it returns null, distinguishable from an all-zero breakdown. -/
theorem ethnicity_breakdown_amended_C2 :
    (∀ (d : EthnicityData) (t : ℚ), d.B03002_001E = some t → t ≠ 0 →
      computeEthnicityBreakdown d = some
        { white := d.B03002_003E.map (fun v => round1 (v / t * 100))
          black := d.B03002_004E.map (fun v => round1 (v / t * 100))
          hispanic := d.B03002_012E.map (fun v => round1 (v / t * 100))
          asian := d.B03002_006E.map (fun v => round1 (v / t * 100))
          other := (optAdd (optAdd (optAdd (optAdd d.B03002_007E d.B03002_008E)
            d.B03002_009E) d.B03002_010E) d.B03002_011E).map
              (fun v => round1 (v / t * 100)) }) ∧
    (∀ d : EthnicityData, d.B03002_001E = some 0 ∨ d.B03002_001E = none →
      computeEthnicityBreakdown d = none) ∧
    computeEthnicityBreakdown c2MinorityInput =
      some { white := some 50, black := some 12, hispanic := some 20,
             asian := some 8, other := some 10 } ∧
    computeEthnicityBreakdown c2AllZeroInput =
      some { white := some 0, black := some 0, hispanic := some 0,
             asian := some 0, other := some 0 } := by
  refine ⟨?_, ?_, ?_, ?_⟩
  · intro d t ht hne
    simp only [computeEthnicityBreakdown, ht, if_neg hne, divPct]
  · intro d h
    rcases h with h | h <;> simp [computeEthnicityBreakdown, h]
  · simp only [computeEthnicityBreakdown, c2MinorityInput, divPct, optAdd, round1, jsRound,
      ratFloor_eq_floor, Option.map]
    norm_num
  · simp only [computeEthnicityBreakdown, c2AllZeroInput, divPct, optAdd, round1, jsRound,
      ratFloor_eq_floor, Option.map]
    norm_num

/-- Closed instance of the amended C2 theorem at `c2MinorityInput`. -/
theorem ethnicity_breakdown_amended_C2_witness :
    computeEthnicityBreakdown c2MinorityInput = some
      { white := (some (500 : ℚ)).map (fun v => round1 (v / 1000 * 100))
        black := (some (120 : ℚ)).map (fun v => round1 (v / 1000 * 100))
        hispanic := (some (200 : ℚ)).map (fun v => round1 (v / 1000 * 100))
        asian := (some (80 : ℚ)).map (fun v => round1 (v / 1000 * 100))
        other := (optAdd (optAdd (optAdd (optAdd (some 0) (some 100))
          (some 0)) (some 0)) (some 0)).map (fun v => round1 (v / 1000 * 100)) } :=
  ethnicity_breakdown_amended_C2.1 c2MinorityInput 1000 rfl (by norm_num)

/-! ## Age buckets and the generational breakdown

The age-bucket mapping of the data model assigns a count to each of the 23
exact ACS age-band labels ("Under 5 years", "5 to 9 years", "10 to 14
years", "15 to 17 years", "18 and 19 years", "20 years", "21 years", "22 to
24 years", "25 to 29 years", "30 to 34 years", "35 to 39 years", "40 to 44
years", "45 to 49 years", "50 to 54 years", "55 to 59 years", "60 and 61
years", "62 to 64 years", "65 and 66 years", "67 to 69 years", "70 to 74
years", "75 to 79 years", "80 to 84 years", "85 years and over").  We index
the bands by `Fin 23` in that order, the order in which `parseAgeData`
constructs the object. -/

/-- Model of `Object.values(age).reduce((a, b) => Number(a) + Number(b))` on a
mapping carrying the 23 canonical age bands. -/
def ageTotal (m : Fin 23 → ℚ) : ℚ := ∑ i, m i

/-- Five generational cohort values (counts or percentages). -/
structure GenFive where
  genAlpha : ℚ
  genZ : ℚ
  millennials : ℚ
  genX : ℚ
  boomers : ℚ
deriving DecidableEq

/-- Result shape of `calculateGenerationalBreakdown`: the zero-total early
return is a flat object holding the five cohort values directly, while the
normal path returns `{counts, percentages, total}`. -/
inductive GenResult where
  | flat (p : GenFive)
  | full (counts : GenFive) (percentages : GenFive) (total : ℚ)
deriving DecidableEq

/-- Function `calculateGenerationalBreakdown(age)` (main module, lines 501–559):
`null` for a missing/non-object input; an all-zero flat object when the
summed total is 0; otherwise counts and `toFixed(1)` percentages for the
five named generations (Gen Alpha bands 0–2, Gen Z bands 3–7, Millennials
bands 8–10, Gen X bands 11–13, Baby Boomers bands 14–22). -/
def calculateGenerationalBreakdown (age : Option (Fin 23 → ℚ)) : Option GenResult :=
  match age with
  | none => none
  | some m =>
    let total := ageTotal m
    if total = 0 then some (.flat ⟨0, 0, 0, 0, 0⟩)
    else
      let genAlpha := m 0 + m 1 + m 2
      let genZ := m 3 + m 4 + m 5 + m 6 + m 7
      let millennials := m 8 + m 9 + m 10
      let genX := m 11 + m 12 + m 13
      let boomers := m 14 + m 15 + m 16 + m 17 + m 18 + m 19 + m 20 + m 21 + m 22
      some (.full ⟨genAlpha, genZ, millennials, genX, boomers⟩
        ⟨round1 (genAlpha / total * 100), round1 (genZ / total * 100),
         round1 (millennials / total * 100), round1 (genX / total * 100),
         round1 (boomers / total * 100)⟩ total)

/-- C3. For every age-bucket mapping whose bucket values sum to zero,
`calculateGenerationalBreakdown` returns the flat object with all five
cohort values `0` — it neither returns `null` nor divides by zero. -/
theorem generational_zero_total_C3 (m : Fin 23 → ℚ) (h : ageTotal m = 0) :
    calculateGenerationalBreakdown (some m) = some (GenResult.flat ⟨0, 0, 0, 0, 0⟩) := by
  simp [calculateGenerationalBreakdown, h]

/-- Closed instance of C3 at the all-zero mapping. -/
theorem generational_zero_total_C3_witness :
    calculateGenerationalBreakdown (some (fun _ => 0)) =
      some (GenResult.flat ⟨0, 0, 0, 0, 0⟩) :=
  generational_zero_total_C3 (fun _ => 0) (by simp [ageTotal])

/-! ## Age-row parser (`parseAgeData` inside `fetchCensusData`, main module)

The age request asks for the 47 variables of `ageVars` (the B01001 total
plus 23 male and 23 female age-band counts).  A response row positionally
matches that list; `none` cells model values on which `+x` yields `NaN`
(`(+ageData[i] || 0)` turns them into 0). -/

/-- The 47 requested age variables, in request order (main module
lines 1756–1770). -/
def ageVars : List String :=
  ["B01001_001E",
   "B01001_003E", "B01001_004E", "B01001_005E", "B01001_006E", "B01001_007E",
   "B01001_008E", "B01001_009E", "B01001_010E", "B01001_011E",
   "B01001_012E", "B01001_013E", "B01001_014E", "B01001_015E",
   "B01001_016E", "B01001_017E", "B01001_018E", "B01001_019E",
   "B01001_020E", "B01001_021E", "B01001_022E", "B01001_023E", "B01001_024E",
   "B01001_025E",
   "B01001_027E", "B01001_028E", "B01001_029E", "B01001_030E", "B01001_031E",
   "B01001_032E", "B01001_033E", "B01001_034E", "B01001_035E",
   "B01001_036E", "B01001_037E", "B01001_038E", "B01001_039E",
   "B01001_040E", "B01001_041E", "B01001_042E", "B01001_043E",
   "B01001_044E", "B01001_045E", "B01001_046E", "B01001_047E", "B01001_048E",
   "B01001_049E"]

/-- The male variable for each age band (B01001_003E … B01001_025E). -/
def bandMaleVars : List String :=
  ["B01001_003E", "B01001_004E", "B01001_005E", "B01001_006E", "B01001_007E",
   "B01001_008E", "B01001_009E", "B01001_010E", "B01001_011E", "B01001_012E",
   "B01001_013E", "B01001_014E", "B01001_015E", "B01001_016E", "B01001_017E",
   "B01001_018E", "B01001_019E", "B01001_020E", "B01001_021E", "B01001_022E",
   "B01001_023E", "B01001_024E", "B01001_025E"]

/-- The female variable for each age band (B01001_027E … B01001_049E). -/
def bandFemaleVars : List String :=
  ["B01001_027E", "B01001_028E", "B01001_029E", "B01001_030E", "B01001_031E",
   "B01001_032E", "B01001_033E", "B01001_034E", "B01001_035E", "B01001_036E",
   "B01001_037E", "B01001_038E", "B01001_039E", "B01001_040E", "B01001_041E",
   "B01001_042E", "B01001_043E", "B01001_044E", "B01001_045E", "B01001_046E",
   "B01001_047E", "B01001_048E", "B01001_049E"]

/-- Model of `(+ageData[i] || 0)`: a missing or non-numeric cell contributes 0. -/
def cellVal (row : List (Option ℚ)) (i : ℕ) : ℚ := (row.getD i none).getD 0

/-- Function `parseAgeData` (main module lines 1798–1831): `null` when the row has
fewer than 48 cells, else band `b` is `ageData[1+b] + ageData[24+b]`
(male + female, positionally). -/
def parseAgeData (ageData : List (Option ℚ)) : Option (Fin 23 → ℚ) :=
  if ageData.length < 48 then none
  else some (fun b => cellVal ageData (1 + b.val) + cellVal ageData (24 + b.val))

/-- C6 counterexample. A well-formed row holding exactly the expected 47
requested variables (`ageVars.length = 47`) is rejected: the guard is
`length < 48`, so `parseAgeData` returns `null` even though the row is not
shorter than the expected variable count. -/
theorem age_row_expected_length_counterexample_C6 :
    ageVars.length = 47 ∧
    parseAgeData (List.replicate 47 (some 0)) = none := by
  constructor
  · rfl
  · simp [parseAgeData]

/-- C6 amended. The hard-coded indices `1+b` / `24+b` are exactly the
positions of band `b`'s male and female variables in the request list; a
row with fewer than 48 cells (one more than the 47 requested variables)
yields a `null` breakdown with no partial fill, and a row with at least 48
cells parses every band as the positional male+female sum. -/
theorem age_row_parse_amended_C6 :
    (∀ b : Fin 23, ageVars.get? (1 + b.val) = some (bandMaleVars.getD b.val "") ∧
      ageVars.get? (24 + b.val) = some (bandFemaleVars.getD b.val "")) ∧
    (∀ row, row.length < 48 → parseAgeData row = none) ∧
    (∀ row, 48 ≤ row.length → parseAgeData row =
      some (fun b => cellVal row (1 + b.val) + cellVal row (24 + b.val))) := by
  refine ⟨by decide, ?_, ?_⟩
  · intro row h
    simp [parseAgeData, h]
  · intro row h
    rw [parseAgeData, if_neg (by omega)]

/-- Closed instance of the amended C6 theorem on a 48-cell row. -/
theorem age_row_parse_amended_C6_witness :
    parseAgeData (List.replicate 48 (some 1)) =
      some (fun b => cellVal (List.replicate 48 (some 1)) (1 + b.val) +
        cellVal (List.replicate 48 (some 1)) (24 + b.val)) :=
  age_row_parse_amended_C6.2.2 (List.replicate 48 (some 1)) (by simp)

/-! ## Navigation state machine (`zoomToState` / `zoomOut` / `revealCounties`)

`currentState` holds the id of the selected state (`null` in Overview);
`visibleCounties` models the county paths present in the `gCounties` layer.
`revealCounties` performs a d3 keyed data join: existing nodes stay in
place (there is no `.exit().remove()` in `revealCounties`), entered data
are appended in data order. -/

/-- Model of `s.slice(0, n)` on the code-unit prefix of an identifier string. -/
def stringPrefix (s : String) (n : ℕ) : String := ⟨s.data.take n⟩

/-- A geographic unit feature, identified by its FIPS id string. -/
structure County where
  id : String
deriving DecidableEq

/-- Navigation state: the selected state id (`none` = Overview) and the
visible county collection. -/
structure NavState where
  currentState : Option String
  visibleCounties : List County
deriving DecidableEq

/-- Model of `counties.filter(c => c.id.slice(0, 2) === stateId)` (`revealCounties`,
main module line 361). -/
def childCounties (geo : List County) (s : String) : List County :=
  geo.filter (fun c => stringPrefix c.id 2 = s)

/-- The d3 keyed join of `revealCounties`: existing elements are kept (exit
nodes are not removed), entered data appended in data order. -/
def d3KeyedJoin (existing incoming : List County) : List County :=
  existing ++ incoming.filter (fun c => !(existing.any (fun v => v.id == c.id)))

/-- Function `revealCounties(state)` applied to the current county layer. -/
def revealCounties (geo : List County) (s : String) (visible : List County) : List County :=
  d3KeyedJoin visible (childCounties geo s)

/-- Function `zoomOut()`: clears the selection and removes every county path. -/
def zoomOut (st : NavState) : NavState :=
  let _ := st
  { currentState := none, visibleCounties := [] }

/-- Function `zoomToState(state)` (main module lines 296–328): re-selecting the
current state toggles back to Overview via `zoomOut`; otherwise the state
becomes current and `revealCounties` joins its children into the layer. -/
def zoomToState (geo : List County) (st : NavState) (s : String) : NavState :=
  if st.currentState = some s then zoomOut st
  else { currentState := some s
         visibleCounties := revealCounties geo s st.visibleCounties }

/-- A two-state geography with one county each. -/
def geoC4 : List County := [⟨"01001"⟩, ⟨"02001"⟩]

/-- C4 counterexample. Selecting state "01" from Overview and then
switching directly to state "02" leaves county "01001" in the visible
layer: `revealCounties` never removes the previous state's counties, so
after the switch the visible set is not exactly the children of "02". -/
theorem nav_direct_switch_counterexample_C4 :
    (zoomToState geoC4 ⟨none, []⟩ "01").visibleCounties = [⟨"01001"⟩] ∧
    (zoomToState geoC4 (zoomToState geoC4 ⟨none, []⟩ "01") "02").currentState = some "02" ∧
    (zoomToState geoC4 (zoomToState geoC4 ⟨none, []⟩ "01") "02").visibleCounties =
      [⟨"01001"⟩, ⟨"02001"⟩] ∧
    (zoomToState geoC4 (zoomToState geoC4 ⟨none, []⟩ "01") "02").visibleCounties ≠
      childCounties geoC4 "02" := by
  refine ⟨?_, ?_, ?_, ?_⟩ <;> decide

/-- C4 amended. Entering `StateSelected(s)` from Overview (empty layer)
makes the visible set exactly the child counties of `s`, a sublist of the
input geography (not re-sorted); a direct switch keeps the previous
counties and appends the new state's children after them; leaving
`StateSelected` (toggle or `zoomOut`) empties the visible set. -/
theorem nav_transitions_amended_C4 (geo : List County) (st : NavState) (s : String)
    (h : st.currentState ≠ some s) :
    (zoomToState geo st s).currentState = some s ∧
    (zoomToState geo st s).visibleCounties =
      st.visibleCounties ++ (childCounties geo s).filter
        (fun c => !(st.visibleCounties.any (fun v => v.id == c.id))) ∧
    (st.visibleCounties = [] →
      (zoomToState geo st s).visibleCounties = childCounties geo s) ∧
    (childCounties geo s).Sublist geo ∧
    (∀ st' : NavState, st'.currentState = some s →
      zoomToState geo st' s = ⟨none, []⟩) ∧
    (zoomOut st).visibleCounties = [] := by
  refine ⟨?_, ?_, ?_, ?_, ?_, rfl⟩
  · simp [zoomToState, h]
  · simp [zoomToState, h, revealCounties, d3KeyedJoin]
  · intro hv
    simp [zoomToState, h, revealCounties, d3KeyedJoin, hv]
  · exact List.filter_sublist geo
  · intro st' h'
    simp [zoomToState, h', zoomOut]

/-- Closed instance of the amended C4 theorem: direct switch from
`StateSelected("01")` to "02" on `geoC4`. -/
theorem nav_transitions_amended_C4_witness :
    (zoomToState geoC4 ⟨some "01", [⟨"01001"⟩]⟩ "02").visibleCounties =
      [(⟨"01001"⟩ : County)] ++ (childCounties geoC4 "02").filter
        (fun c => !([(⟨"01001"⟩ : County)].any (fun v => v.id == c.id))) :=
  (nav_transitions_amended_C4 geoC4 ⟨some "01", [⟨"01001"⟩]⟩ "02" (by decide)).2.1

/-! ## Income percentile (`buildCountyStatsHTML`, main module lines 1063–1075)

`allCountyIncomes` is the comparison list; `medianIncome` the current
county's value (`none` models `null`/`undefined`/`NaN`).  The guard is the
JavaScript truthiness test `medianIncome && allCountyIncomes.length > 0`,
so the value `0` also fails it. -/

/-- The inline percentile computation of `buildCountyStatsHTML`. -/
def computeIncomePercentile (v : Option ℚ) (incomes : List ℚ) : Option ℤ :=
  match v with
  | none => none
  | some x =>
    if x = 0 then none
    else if incomes.length = 0 then none
    else some (jsRound ((((incomes.filter (fun i => i < x)).length : ℚ) /
      (incomes.length : ℚ)) * 100))

/-- Modelled from the spec: the percentage of the comparison set strictly
below the value, rounded to the nearest integer. -/
def specIncomePercentile (x : ℚ) (incomes : List ℚ) : ℤ :=
  jsRound (((incomes.countP (fun i => i < x) : ℚ) / (incomes.length : ℚ)) * 100)

/-- C5 counterexample. The non-null income value `0` is falsy in the
guard `medianIncome && …`, so the code yields `null` for `v = 0` against a
non-empty comparison list, while the claimed formula yields percentile 0. -/
theorem income_percentile_zero_counterexample_C5 :
    computeIncomePercentile (some 0) [1] = none ∧
    specIncomePercentile 0 [1] = 0 ∧
    computeIncomePercentile (some 0) [1] ≠ some (specIncomePercentile 0 [1]) := by
  have h1 : computeIncomePercentile (some 0) [1] = none := by
    simp [computeIncomePercentile]
  have h2 : specIncomePercentile 0 [1] = 0 := by
    simp only [specIncomePercentile, jsRound, ratFloor_eq_floor, List.countP,
      List.countP.go, List.length]
    norm_num
  exact ⟨h1, h2, by rw [h1]; exact fun hc => Option.noConfusion hc⟩

/-- C5 amended. For every non-null, nonzero income value `v` and
non-empty comparison list `L`, the percentile is
`Math.round(|{x ∈ L : x < v}| / |L| · 100)` — strictly-below rank, rounded
to nearest — and it is `null` when `L` is empty, when `v` is null/absent,
or when `v = 0` (a zero income is falsy and treated like an absent one). -/
theorem income_percentile_amended_C5 (x : ℚ) (L : List ℚ) (hx : x ≠ 0) (hL : L ≠ []) :
    computeIncomePercentile (some x) L = some (specIncomePercentile x L) ∧
    computeIncomePercentile none L = none ∧
    computeIncomePercentile (some x) [] = none := by
  refine ⟨?_, rfl, by simp [computeIncomePercentile]⟩
  rw [computeIncomePercentile, if_neg hx, if_neg (by simpa using hL)]
  rw [specIncomePercentile, List.countP_eq_length_filter]

/-- Closed instance of the amended C5 theorem at the spec's worked example:
60000 against [20000, 40000, 60000, 80000, 100000]. -/
theorem income_percentile_amended_C5_witness :
    computeIncomePercentile (some 60000) [20000, 40000, 60000, 80000, 100000] =
      some (specIncomePercentile 60000 [20000, 40000, 60000, 80000, 100000]) :=
  (income_percentile_amended_C5 60000 [20000, 40000, 60000, 80000, 100000]
    (by norm_num) (by simp)).1

/-! ## History tracker (`recordCountyHistory`, main module lines 113–118)

`countyHistory` is a most-recent-first list of snapshot entries; recorded
entries are fresh object literals, so two different list positions always
hold different records. -/

/-- A history snapshot entry. -/
structure HEntry where
  fips : String
  name : String
  population : Option ℚ
  medianAge : Option ℚ
  medianIncome : Option ℚ
deriving DecidableEq

/-- Function `recordCountyHistory(countyData)`: drop any entry with the same
identifier, unshift the new entry, truncate to the 10 most recent. -/
def recordCountyHistory (h : List HEntry) (e : HEntry) : List HEntry :=
  (e :: h.filter (fun c => c.fips ≠ e.fips)).take 10

/-- Most-recent-first de-duplication by identifier: keep the first
occurrence of every `fips`. -/
def dedupByFips : List HEntry → List HEntry
  | [] => []
  | e :: t => e :: dedupByFips (t.filter (fun c => c.fips ≠ e.fips))
termination_by l => l.length
decreasing_by
  simp only [List.length_cons]
  exact Nat.lt_succ_of_le (List.length_filter_le _ _)

theorem dedupByFips_nil : dedupByFips [] = [] := by
  rw [dedupByFips]

theorem dedupByFips_cons (e : HEntry) (t : List HEntry) :
    dedupByFips (e :: t) = e :: dedupByFips (t.filter (fun c => c.fips ≠ e.fips)) := by
  rw [dedupByFips]

theorem mem_of_mem_dedupByFips :
    ∀ (l : List HEntry) {x : HEntry}, x ∈ dedupByFips l → x ∈ l := by
  intro l
  induction l using dedupByFips.induct with
  | case1 =>
    intro x hx
    rw [dedupByFips_nil] at hx
    exact absurd hx (List.not_mem_nil x)
  | case2 e t ih =>
    intro x hx
    rw [dedupByFips_cons] at hx
    rcases List.mem_cons.mp hx with h | h
    · exact h ▸ List.mem_cons_self e t
    · exact List.mem_cons_of_mem _ (List.mem_of_mem_filter (ih h))

theorem countP_dedupByFips_le_one (p : String) : ∀ l : List HEntry,
    (dedupByFips l).countP (fun c => c.fips = p) ≤ 1 := by
  intro l
  induction l using dedupByFips.induct with
  | case1 => rw [dedupByFips_nil]; simp
  | case2 e t ih =>
    rw [dedupByFips_cons, List.countP_cons]
    by_cases hp : e.fips = p
    · have h0 : (dedupByFips (t.filter (fun c => c.fips ≠ e.fips))).countP
          (fun c => c.fips = p) = 0 := by
        rw [List.countP_eq_zero]
        intro a ha
        have hne := List.of_mem_filter (mem_of_mem_dedupByFips _ ha)
        simp only [decide_eq_true_eq] at hne ⊢
        intro hap
        exact hne (hap.trans hp.symm)
      rw [h0]
      simp [hp]
    · simp only [decide_eq_true_eq, hp, if_false]
      simpa using ih

theorem nodup_fips_dedupByFips : ∀ l : List HEntry,
    ((dedupByFips l).map HEntry.fips).Nodup := by
  intro l
  induction l using dedupByFips.induct with
  | case1 => rw [dedupByFips_nil]; simp
  | case2 e t ih =>
    rw [dedupByFips_cons, List.map_cons, List.nodup_cons]
    refine ⟨?_, ih⟩
    intro hmem
    rcases List.mem_map.mp hmem with ⟨x, hx, hfx⟩
    have hne := List.of_mem_filter (mem_of_mem_dedupByFips _ hx)
    simp only [decide_eq_true_eq] at hne
    exact hne hfx

theorem dedupByFips_filter (q : String) : ∀ l : List HEntry,
    dedupByFips (l.filter (fun c => c.fips ≠ q)) =
      (dedupByFips l).filter (fun c => c.fips ≠ q) := by
  intro l
  induction l using dedupByFips.induct with
  | case1 => rw [dedupByFips_nil]; simp [dedupByFips_nil]
  | case2 e t ih =>
    by_cases he : e.fips = q
    · rw [List.filter_cons_of_neg (by simp [he]), dedupByFips_cons,
        List.filter_cons_of_neg (by simp [he]), ← ih, List.filter_filter]
      congr 1
      apply List.filter_congr
      intro a ha
      simp [he]
    · rw [List.filter_cons_of_pos (by simp [he]), dedupByFips_cons, dedupByFips_cons,
        List.filter_cons_of_pos (by simp [he]), ← ih, List.filter_comm]

theorem take_ten_cons (a : HEntry) (xs : List HEntry) :
    (a :: xs).take 10 = a :: xs.take 9 := rfl

theorem countP_add_countP_not (p : HEntry → Bool) (l : List HEntry) :
    l.countP p + l.countP (fun a => !(p a)) = l.length := by
  induction l with
  | nil => simp
  | cons a t ih =>
    rw [List.countP_cons, List.countP_cons, List.length_cons]
    cases hpa : p a <;> simp [hpa] <;> omega

theorem take_nine_filter_take_ten (q : String) (M : List HEntry)
    (hM : M.countP (fun c => c.fips = q) ≤ 1) :
    ((M.take 10).filter (fun c => c.fips ≠ q)).take 9 =
      (M.filter (fun c => c.fips ≠ q)).take 9 := by
  by_cases hlen : M.length ≤ 10
  · rw [List.take_of_length_le hlen]
  · push_neg at hlen
    have hsplit : M.filter (fun c => c.fips ≠ q) =
        (M.take 10).filter (fun c => c.fips ≠ q) ++
          (M.drop 10).filter (fun c => c.fips ≠ q) := by
      conv_lhs => rw [← List.take_append_drop 10 M]
      rw [List.filter_append]
    have hcnt : (M.take 10).countP (fun c => c.fips = q) ≤ 1 :=
      le_trans (List.Sublist.countP_le _ (List.take_sublist 10 M)) hM
    have hpred : (fun (c : HEntry) => decide (c.fips ≠ q)) =
        (fun c => !(decide (c.fips = q))) := by
      funext c
      simp [decide_not]
    have hflen : 9 ≤ ((M.take 10).filter (fun c => c.fips ≠ q)).length := by
      have h1 := countP_add_countP_not (fun c => decide (c.fips = q)) (M.take 10)
      have h2 : (M.take 10).length = 10 := by
        rw [List.length_take]
        omega
      rw [← List.countP_eq_length_filter, hpred]
      omega
    rw [hsplit, List.take_append_of_le_length hflen]

theorem foldl_recordCountyHistory (ops : List HEntry) :
    List.foldl recordCountyHistory [] ops = (dedupByFips ops.reverse).take 10 := by
  induction ops using List.reverseRecOn with
  | nil =>
    rw [List.foldl_nil, List.reverse_nil, dedupByFips_nil]
    rfl
  | append_singleton l a ih =>
    rw [List.foldl_append, List.foldl_cons, List.foldl_nil, ih,
      List.reverse_append, List.reverse_singleton, List.singleton_append,
      dedupByFips_cons, dedupByFips_filter,
      recordCountyHistory, take_ten_cons, take_ten_cons]
    congr 1
    exact take_nine_filter_take_ten a.fips (dedupByFips l.reverse)
      (countP_dedupByFips_le_one a.fips l.reverse)

/-- C7. After every sequence of `recordCountyHistory` operations from an
empty history, the history equals the first 10 entries of the most-recent-
first de-duplication (by identifier) of the recorded entries — so it is in
most-recent-first order and carries, per identifier, the latest supplied
field values — it has at most 10 entries with pairwise-distinct
identifiers, and recording places the new entry at the front as the unique
entry with its identifier. -/
theorem history_bounded_dedup_C7 :
    (∀ ops : List HEntry,
      List.foldl recordCountyHistory [] ops = (dedupByFips ops.reverse).take 10) ∧
    (∀ ops : List HEntry, (List.foldl recordCountyHistory [] ops).length ≤ 10) ∧
    (∀ ops : List HEntry,
      ((List.foldl recordCountyHistory [] ops).map HEntry.fips).Nodup) ∧
    (∀ (h : List HEntry) (e : HEntry), (recordCountyHistory h e).head? = some e) ∧
    (∀ (h : List HEntry) (e : HEntry),
      (recordCountyHistory h e).filter (fun c => c.fips = e.fips) = [e]) := by
  refine ⟨foldl_recordCountyHistory, ?_, ?_, ?_, ?_⟩
  · intro ops
    rw [foldl_recordCountyHistory]
    exact List.length_take_le 10 _
  · intro ops
    rw [foldl_recordCountyHistory, List.map_take]
    exact List.Nodup.sublist (List.take_sublist 10 _) (nodup_fips_dedupByFips _)
  · intro h e
    rw [recordCountyHistory, take_ten_cons]
    rfl
  · intro h e
    rw [recordCountyHistory, take_ten_cons, List.filter_cons_of_pos (by simp)]
    have hnil : ((h.filter (fun c => c.fips ≠ e.fips)).take 9).filter
        (fun c => c.fips = e.fips) = [] := by
      rw [List.filter_eq_nil_iff]
      intro a ha
      have hne := List.of_mem_filter (List.mem_of_mem_take ha)
      simp only [decide_eq_true_eq] at hne ⊢
      exact hne
    rw [hnil]

/-! ## History panel render order (`renderHistoryPanel`, lines 120–135) -/

/-- Test `entry.fips === pinnedBaselineFips` (false when no pin is set). -/
def isPinned (pin : Option String) (e : HEntry) : Bool := pin == some e.fips

/-- The comparator passed to `sort`: −1 when only `a` is pinned, 1 when
only `b` is pinned, 0 otherwise. -/
def pinCmp (pin : Option String) (a b : HEntry) : ℤ :=
  if isPinned pin a && !(isPinned pin b) then -1
  else if !(isPinned pin a) && isPinned pin b then 1
  else 0

/-- Stable insertion: `x` is placed before the first element `y` with
`pinCmp x y ≤ 0`.  `ECMAScript `Array.prototype.sort` is stable and
`pinCmp` is a consistent comparator, so every stable sorting algorithm —
this insertion sort included — produces the engine's result. -/
def sortInsert (pin : Option String) (x : HEntry) : List HEntry → List HEntry
  | [] => [x]
  | y :: t => if pinCmp pin x y ≤ 0 then x :: y :: t else y :: sortInsert pin x t

/-- Model of `[...countyHistory].sort(comparator)` of `renderHistoryPanel`. -/
def renderOrder (pin : Option String) : List HEntry → List HEntry
  | [] => []
  | x :: t => sortInsert pin x (renderOrder pin t)

theorem sortInsert_pinned (pin : Option String) (x : HEntry)
    (hx : isPinned pin x = true) (l : List HEntry) :
    sortInsert pin x l = x :: l := by
  cases l with
  | nil => rfl
  | cons y t =>
    rw [sortInsert, if_pos]
    by_cases hy : isPinned pin y <;> simp [pinCmp, hx, hy]

theorem sortInsert_unpinned (pin : Option String) (x : HEntry)
    (hx : isPinned pin x = false) :
    ∀ (F N : List HEntry), (∀ y ∈ F, isPinned pin y = true) →
      (∀ z ∈ N, isPinned pin z = false) →
      sortInsert pin x (F ++ N) = F ++ x :: N := by
  intro F
  induction F with
  | nil =>
    intro N _ hN
    cases N with
    | nil => rfl
    | cons z t =>
      have hz := hN z (List.mem_cons_self z t)
      rw [List.nil_append, sortInsert, if_pos (by simp [pinCmp, hx, hz])]
      rfl
  | cons y F ihF =>
    intro N hF hN
    have hy := hF y (List.mem_cons_self y F)
    rw [List.cons_append, sortInsert, if_neg (by simp [pinCmp, hx, hy]),
      ihF N (fun a ha => hF a (List.mem_cons_of_mem _ ha)) hN, List.cons_append]

theorem renderOrder_eq_partition (pin : Option String) : ∀ h : List HEntry,
    renderOrder pin h =
      h.filter (isPinned pin) ++ h.filter (fun e => !(isPinned pin e)) := by
  intro h
  induction h with
  | nil => rfl
  | cons x t ih =>
    rw [renderOrder, ih]
    by_cases hx : isPinned pin x
    · rw [sortInsert_pinned pin x hx, List.filter_cons_of_pos hx,
        List.filter_cons_of_neg (by simp [hx]), List.cons_append]
    · have hx' : isPinned pin x = false := by simpa using hx
      rw [sortInsert_unpinned pin x hx' _ _
          (fun y hy => List.of_mem_filter hy)
          (fun z hz => by simpa using List.of_mem_filter hz),
        List.filter_cons_of_neg (by simp [hx']),
        List.filter_cons_of_pos (by simp [hx'])]

/-- History entries used in the concrete pin-stability scenario. -/
def entryA : HEntry :=
  { fips := "A", name := "County A", population := some 100,
    medianAge := some 30, medianIncome := some 50000 }

def entryB : HEntry :=
  { fips := "B", name := "County B", population := some 200,
    medianAge := some 35, medianIncome := some 60000 }

def entryC : HEntry :=
  { fips := "C", name := "County C", population := some 300,
    medianAge := some 40, medianIncome := some 70000 }

def entryD : HEntry :=
  { fips := "D", name := "County D", population := some 400,
    medianAge := some 45, medianIncome := some 80000 }

/-- C8. The rendered order is the stable partition of the stored
most-recent-first history: pinned entries first, all others in their stored
relative order; the subsequence of entries pinned under neither of two pin
values is the same however the pin is toggled; and with history `[A,B,C]`
(A most recent), pinning `C` and then recording a new visit `D` renders
`[C,D,A,B]`. -/
theorem render_order_stable_partition_C8 :
    (∀ (pin : Option String) (h : List HEntry),
      renderOrder pin h =
        h.filter (isPinned pin) ++ h.filter (fun e => !(isPinned pin e))) ∧
    (∀ (p q : Option String) (h : List HEntry),
      (renderOrder p h).filter (fun e => !(isPinned p e) && !(isPinned q e)) =
        (renderOrder q h).filter (fun e => !(isPinned p e) && !(isPinned q e))) ∧
    renderOrder (some "C") (recordCountyHistory [entryA, entryB, entryC] entryD) =
      [entryC, entryD, entryA, entryB] := by
  have hpart := renderOrder_eq_partition
  refine ⟨hpart, ?_, by decide⟩
  intro p q h
  have key : ∀ r : Option String,
      (∀ a : HEntry, isPinned r a = true →
        (!(isPinned p a) && !(isPinned q a)) = false) →
      (renderOrder r h).filter (fun e => !(isPinned p e) && !(isPinned q e)) =
        h.filter (fun e => !(isPinned p e) && !(isPinned q e)) := by
    intro r hr
    rw [hpart r h, List.filter_append]
    have hleft : (h.filter (isPinned r)).filter
        (fun e => !(isPinned p e) && !(isPinned q e)) = [] := by
      rw [List.filter_eq_nil_iff]
      intro a ha
      rw [hr a (List.of_mem_filter ha)]
      simp
    have hright : (h.filter (fun e => !(isPinned r e))).filter
        (fun e => !(isPinned p e) && !(isPinned q e)) =
          h.filter (fun e => !(isPinned p e) && !(isPinned q e)) := by
      rw [List.filter_filter]
      apply List.filter_congr
      intro a _
      cases hra : isPinned r a
      · simp
      · rw [hr a hra]
        simp
    rw [hleft, hright, List.nil_append]
  rw [key p (fun a ha => by simp [ha]), key q (fun a ha => by simp [ha])]


/-! ## Trend comparison (`compareToBaseline`, main module lines 192–215)

The code resolves `baseline` with `Array.find` when a pin is set (else
`countyHistory[0]`), reads `curr = countyHistory[currentIndex]`, and
returns `null` when either is missing or when `baseline === curr`.  The
`===` identity test is modelled by index equality: recorded entries are
fresh object literals, so two different positions never hold the same
object. -/

/-- One of the per-field trend markers. -/
inductive Trend where
  | up
  | down
  | same
deriving DecidableEq

/-- Function `trend(a, b)` for a current-entry field `a` and a baseline field `b`:
`null` when either is missing, else up / down / same. -/
def trend (a b : Option ℚ) : Option Trend :=
  match a, b with
  | some x, some y =>
    if y < x then some .up else if x < y then some .down else some .same
  | _, _ => none

/-- The three per-field trends returned by `compareToBaseline`. -/
structure Trends where
  population : Option Trend
  medianAge : Option Trend
  medianIncome : Option Trend
deriving DecidableEq

/-- Index of the baseline entry: position of the pinned id when a pin is
set (`Array.find` position), else 0 (the most-recent entry). -/
def baselineIdx (h : List HEntry) : Option String → Option ℕ
  | some p => h.findIdx? (fun c => c.fips = p)
  | none => some 0

/-- Function `compareToBaseline(currentIndex)` against history `h` and pinned id
`pin` (`none` = no pin set). -/
def compareToBaseline (h : List HEntry) (pin : Option String) (i : ℕ) : Option Trends :=
  if h.length = 0 then none
  else
    match baselineIdx h pin, h[i]? with
    | some b, some curr =>
      match h[b]? with
      | some base =>
        if b = i then none
        else some { population := trend curr.population base.population
                    medianAge := trend curr.medianAge base.medianAge
                    medianIncome := trend curr.medianIncome base.medianIncome }
      | none => none
    | _, _ => none

/-- The spec's baseline resolution: the pinned entry if a pin is set, else
the most-recent entry. -/
def resolvedBaseline (h : List HEntry) (pin : Option String) : Option HEntry :=
  match pin with
  | some p => h.find? (fun c => c.fips = p)
  | none => h.head?

/-- Modelled from the spec: trends of entry `i` against the resolved
baseline, `null` when no baseline resolves, the entry is missing, or the
entry is the baseline record itself (same identifier, for a
duplicate-free history). -/
def specCompareToBaseline (h : List HEntry) (pin : Option String) (i : ℕ) : Option Trends :=
  match resolvedBaseline h pin, h[i]? with
  | some base, some curr =>
    if curr.fips = base.fips then none
    else some { population := trend curr.population base.population
                medianAge := trend curr.medianAge base.medianAge
                medianIncome := trend curr.medianIncome base.medianIncome }
  | _, _ => none

theorem findIdx?_succ_shift (p : HEntry → Bool) :
    ∀ (l : List HEntry) (s : ℕ),
      l.findIdx? p (s + 1) = (l.findIdx? p s).map (· + 1) := by
  intro l
  induction l with
  | nil => intro s; rfl
  | cons x xs ih =>
    intro s
    rw [List.findIdx?_cons, List.findIdx?_cons]
    by_cases hx : p x
    · simp [hx]
    · simp only [hx, if_false]
      exact ih (s + 1)

theorem findIdx?_none_iff_find?_none (p : HEntry → Bool) (l : List HEntry) :
    l.findIdx? p = none ↔ l.find? p = none := by
  rw [List.findIdx?_eq_none_iff, List.find?_eq_none]
  constructor
  · intro h x hx
    rw [h x hx]
    exact Bool.false_ne_true
  · intro h x hx
    exact Bool.not_eq_true _ |>.mp (h x hx)

theorem findIdx?_some_spec (p : HEntry → Bool) :
    ∀ (l : List HEntry) (b : ℕ), l.findIdx? p = some b →
      ∃ a, l[b]? = some a ∧ l.find? p = some a ∧ p a = true := by
  intro l
  induction l with
  | nil =>
    intro b hb
    rw [List.findIdx?_nil] at hb
    exact absurd hb (by simp)
  | cons x xs ih =>
    intro b hb
    rw [List.findIdx?_cons] at hb
    by_cases hx : p x
    · rw [if_pos hx] at hb
      have hb0 := Option.some.inj hb
      subst hb0
      exact ⟨x, by simp, List.find?_cons_of_pos _ hx, hx⟩
    · rw [if_neg hx, findIdx?_succ_shift] at hb
      rcases Option.map_eq_some'.mp hb with ⟨c, hc, rfl⟩
      rcases ih c hc with ⟨a, ha1, ha2, ha3⟩
      exact ⟨a, by simpa using ha1, by rw [List.find?_cons_of_neg _ hx]; exact ha2, ha3⟩

theorem fips_index_inj (h : List HEntry) (hn : (h.map HEntry.fips).Nodup)
    {i j : ℕ} {a b : HEntry} (ha : h[i]? = some a) (hb : h[j]? = some b)
    (hab : a.fips = b.fips) : i = j := by
  have hma : (h.map HEntry.fips)[i]? = some a.fips := by
    rw [List.getElem?_map, ha]
    rfl
  have hmb : (h.map HEntry.fips)[j]? = some b.fips := by
    rw [List.getElem?_map, hb]
    rfl
  have hlen : i < (h.map HEntry.fips).length := by
    rcases List.getElem?_eq_some.mp hma with ⟨hl, _⟩
    exact hl
  exact List.getElem?_inj hlen hn (by rw [hma, hmb, hab])

theorem compareToBaseline_refines (h : List HEntry) (pin : Option String) (i : ℕ)
    (hn : (h.map HEntry.fips).Nodup) :
    compareToBaseline h pin i = specCompareToBaseline h pin i := by
  cases h with
  | nil => cases pin <;> rfl
  | cons x t =>
    cases pin with
    | none =>
      simp only [compareToBaseline, baselineIdx, specCompareToBaseline, resolvedBaseline,
        List.head?_cons, List.length_cons, Nat.succ_ne_zero, if_false]
      cases hcurr : (x :: t)[i]? with
      | none => rfl
      | some curr =>
        have hx0 : (x :: t)[0]? = some x := List.getElem?_cons_zero
        by_cases h0 : 0 = i
        · have hcx : curr = x := by
            rw [← h0, hx0] at hcurr
            exact (Option.some.inj hcurr).symm
          simp [hx0, h0, hcx, hcurr]
        · have hfips : ¬(curr.fips = x.fips) := fun hf =>
            h0 (fips_index_inj (x :: t) hn hx0 hcurr hf.symm)
          simp [hx0, h0, hfips]
    | some p =>
      cases hf : (x :: t).findIdx? (fun c => c.fips = p) with
      | none =>
        have hfind : (x :: t).find? (fun c => c.fips = p) = none :=
          (findIdx?_none_iff_find?_none _ _).mp hf
        simp [compareToBaseline, baselineIdx, specCompareToBaseline, resolvedBaseline,
          hf, hfind]
      | some b =>
        rcases findIdx?_some_spec _ (x :: t) b hf with ⟨base, hgetb, hfind, hpbase⟩
        simp only [compareToBaseline, baselineIdx, specCompareToBaseline, resolvedBaseline,
          hf, hfind, List.length_cons, Nat.succ_ne_zero, if_false]
        cases hcurr : (x :: t)[i]? with
        | none => rfl
        | some curr =>
          by_cases hbi : b = i
          · have hcb : curr = base := by
              rw [← hbi, hgetb] at hcurr
              exact (Option.some.inj hcurr).symm
            simp [hgetb, hbi, hcb, hcurr]
          · have hfips : ¬(curr.fips = base.fips) := fun hff =>
              hbi (fips_index_inj (x :: t) hn hgetb hcurr hff.symm)
            simp [hgetb, hbi, hfips]

/-- C9. For a duplicate-free history, `compareToBaseline` computes
exactly the spec's comparison: baseline = pinned entry if a pin is set,
else the most-recent entry; the result is `null` for an empty history, for
an unresolvable baseline, and for the baseline record itself (so the
most-recent entry self-compares to `null` when no pin is set); otherwise
each of population / medianAge / medianIncome independently maps to
up / down / same when both values are present and `null` when either is
missing. -/
theorem compare_baseline_semantics_C9 :
    (∀ (h : List HEntry) (pin : Option String) (i : ℕ),
      (h.map HEntry.fips).Nodup →
        compareToBaseline h pin i = specCompareToBaseline h pin i) ∧
    (∀ (pin : Option String) (i : ℕ), compareToBaseline [] pin i = none) ∧
    (∀ h : List HEntry, compareToBaseline h none 0 = none) ∧
    (∀ a : Option ℚ, trend a none = none ∧ trend none a = none) ∧
    (∀ x y : ℚ, trend (some x) (some y) =
      some (if y < x then Trend.up else if x < y then Trend.down else Trend.same)) := by
  refine ⟨compareToBaseline_refines, ?_, ?_, ?_,
    fun x y => by simp only [trend]; split_ifs <;> rfl⟩
  · intro pin i
    cases pin <;> rfl
  · intro h
    cases h with
    | nil => rfl
    | cons x t => simp [compareToBaseline, baselineIdx, List.getElem?_cons_zero]
  · intro a
    exact ⟨by cases a <;> rfl, rfl⟩

/-- Closed instance of the C9 refinement on a two-entry pinned history. -/
theorem compare_baseline_semantics_C9_witness :
    compareToBaseline [entryA, entryB] (some "B") 0 =
      specCompareToBaseline [entryA, entryB] (some "B") 0 :=
  compare_baseline_semantics_C9.1 [entryA, entryB] (some "B") 0 (by decide)

/-- A stale pin yields no baseline: `Array.find` misses, so every
comparison is `null`. -/
theorem stale_pin_none (h : List HEntry) (p : String) (i : ℕ)
    (hp : p ∉ h.map HEntry.fips) : compareToBaseline h (some p) i = none := by
  have hfind : h.findIdx? (fun c => c.fips = p) = none := by
    rw [List.findIdx?_eq_none_iff]
    intro x hx
    have hxp : ¬(x.fips = p) := fun hc => hp (hc ▸ List.mem_map_of_mem HEntry.fips hx)
    simpa using hxp
  cases h with
  | nil => rfl
  | cons x t => simp [compareToBaseline, baselineIdx, hfind]

/-- Entry with only an identifier, as evicted-pin demonstration data. -/
def mkEntry (s : String) : HEntry :=
  { fips := s, name := s, population := none, medianAge := none, medianIncome := none }

/-- Ten fresh visits recorded after `entryC`, evicting it from the
10-entry history while the pin variable still holds `"C"`. -/
def pinnedHistoryDemo : List HEntry :=
  List.foldl recordCountyHistory []
    [entryC, mkEntry "E0", mkEntry "E1", mkEntry "E2", mkEntry "E3", mkEntry "E4",
     mkEntry "E5", mkEntry "E6", mkEntry "E7", mkEntry "E8", mkEntry "E9"]

/-- C10. When the pinned identifier no longer occurs in the history,
`compareToBaseline` returns `null` for every index instead of falling back
to the most-recent entry; the stale state is reachable: recording ten new
visits after pinning `entryC` truncates it out of the 10-entry history
while nothing clears the pin, and every entry's trend is then `null`. -/
theorem stale_pin_all_null_C10 :
    (∀ (h : List HEntry) (p : String) (i : ℕ), p ∉ h.map HEntry.fips →
      compareToBaseline h (some p) i = none) ∧
    (pinnedHistoryDemo.length = 10 ∧
      "C" ∉ pinnedHistoryDemo.map HEntry.fips ∧
      ∀ i : Fin 10, compareToBaseline pinnedHistoryDemo (some "C") i.val = none) :=
  ⟨stale_pin_none,
   by decide,
   by decide,
   fun i => stale_pin_none pinnedHistoryDemo "C" i.val (by decide)⟩

/-- Closed instance of the C10 stale-pin theorem. -/
theorem stale_pin_all_null_C10_witness :
    compareToBaseline [entryA] (some "Z") 0 = none :=
  stale_pin_all_null_C10.1 [entryA] "Z" 0 (by decide)

end DemoGraph
